import Mathlib

/-!
# Verification of the football-mvp-ai repository

Shallow embedding of the repository's Python sources in Lean 4, together
with theorems settling the specification claims.

Modelled modules:
* `src/utils/input_parser.py` — `parse_user_input` and the fixed regex
  `(.+?)\s+(?:vs|VS|v|V)\s+(.+?)\s+(?:on|ON)\s+(\d{4}-\d{2}-\d{2})`
  applied with `re.match` (anchored at the start, prefix match), embedded
  as a backtracking matcher with Python's lazy/greedy/ordered-alternation
  search order.
* `src/utils/api_client.py` — `_make_request` outcome handling,
  `find_fixture`, `get_player_stats`.
* `src/tools/football_tools.py` — the minutes filter and the per-player
  digest of `determine_mvp` / `_create_player_summary`.
* `src/main.py` — one iteration of the interaction loop.

Character-level model: Python's `\s`, `str.strip`, `str.lower` are
unicode-aware; the embedding models their ASCII behaviour, which is the
behaviour exercised by the specification.
-/

namespace FootballMVP

/-- ASCII whitespace as matched by Python's regex `\s` and stripped by
`str.strip()`: space, tab, newline, carriage return, vertical tab, form
feed. -/
def pyWS (c : Char) : Bool :=
  c = ' ' || c = '\t' || c = '\n' || c = '\r' || c = '\x0b' || c = '\x0c'

/-- Python `str.strip()` on a character list: drop whitespace from both
ends. -/
def pyStrip (s : List Char) : List Char :=
  ((s.dropWhile pyWS).reverse.dropWhile pyWS).reverse

/-- Python `str.strip()` on strings. -/
def pyStripS (s : String) : String :=
  ⟨pyStrip s.toList⟩

/-- Python `x or default` for an optional integer field (`None` and `0`
are falsy). -/
def pyOrInt (v : Option Int) (d : Int) : Int :=
  match v with
  | some x => if x = 0 then d else x
  | none => d

/-- Python `x or default` for an optional string field (`None` and the
empty string are falsy). -/
def pyOrStr (v : Option String) (d : String) : String :=
  match v with
  | some s => if s = "" then d else s
  | none => d

/-- Python substring test `needle in hay`. -/
def pySubstr (needle hay : String) : Bool :=
  decide (needle.toList <:+: hay.toList)

/-- Python `str.lower()` (ASCII model): lower-case every character. -/
def pyLower (s : String) : String :=
  ⟨s.data.map Char.toLower⟩

/-! ## `src/utils/input_parser.py`

The pattern `(.+?)\s+(?:vs|VS|v|V)\s+(.+?)\s+(?:on|ON)\s+(\d{4}-\d{2}-\d{2})`
is embedded as a backtracking matcher over `List Char`.  The result type
of a match is the triple of captured groups. -/

/-- Dot of the regex (`.`): any character except a newline. -/
def dotChar (c : Char) : Bool := c ≠ '\n'

/-- Captured groups of the fixed pattern: team1, team2, date. -/
abbrev Groups := List Char × List Char × List Char

/-- Lazy `(X+?)` where each character must satisfy `p`: consume one
character, try the continuation, and only on failure consume more —
Python's non-greedy search order. `acc` is the text captured so far. -/
def lazyPlus (p : Char → Bool) (k : List Char → List Char → Option Groups) :
    List Char → List Char → Option Groups
  | _, [] => none
  | acc, c :: rest =>
    if p c then
      match k (acc ++ [c]) rest with
      | some r => some r
      | none => lazyPlus p k (acc ++ [c]) rest
    else none

/-- Backtracking for greedy `\s+`: try consuming `i` characters, then
`i-1`, …, down to `1`. -/
def greedyTry (k : List Char → Option Groups) (s : List Char) : Nat → Option Groups
  | 0 => none
  | i + 1 =>
    match k (s.drop (i + 1)) with
    | some r => some r
    | none => greedyTry k s i

/-- Greedy `\s+`: consume the maximal run of whitespace first, then
backtrack to shorter nonempty runs. -/
def greedyWS (k : List Char → Option Groups) (s : List Char) : Option Groups :=
  greedyTry k s (s.takeWhile pyWS).length

/-- Ordered alternation of literal strings, as in `(?:vs|VS|v|V)`:
try each alternative in order, running the continuation on the rest. -/
def litAlt (alts : List (List Char)) (k : List Char → Option Groups)
    (s : List Char) : Option Groups :=
  match alts with
  | [] => none
  | a :: more =>
    match (if a.isPrefixOf s then k (s.drop a.length) else none) with
    | some r => some r
    | none => litAlt more k s

/-- The `vs` separator alternatives, in the pattern's order. -/
def sepAlts : List (List Char) := [['v', 's'], ['V', 'S'], ['v'], ['V']]

/-- The `on` separator alternatives, in the pattern's order. -/
def onAlts : List (List Char) := [['o', 'n'], ['O', 'N']]

/-- Positional character check used by the date shape. -/
def chkAt (d : List Char) (i : Nat) (p : Char → Bool) : Bool :=
  match d.get? i with
  | some c => p c
  | none => false

/-- The shape `\d{4}-\d{2}-\d{2}`: exactly ten characters, digits in
positions 0‒3, 5‒6, 8‒9 and dashes in positions 4 and 7. -/
def isDateShape (d : List Char) : Bool :=
  d.length == 10 &&
  chkAt d 0 Char.isDigit && chkAt d 1 Char.isDigit &&
  chkAt d 2 Char.isDigit && chkAt d 3 Char.isDigit &&
  chkAt d 4 (· = '-') &&
  chkAt d 5 Char.isDigit && chkAt d 6 Char.isDigit &&
  chkAt d 7 (· = '-') &&
  chkAt d 8 Char.isDigit && chkAt d 9 Char.isDigit

/-- Date group `(\d{4}-\d{2}-\d{2})`: deterministic fixed-length match; the rest of
the input after the ten captured characters is left unconsumed (the
pattern ends here, and `re.match` does not require end of input). -/
def matchDate (k : List Char → List Char → Option Groups) (s : List Char) :
    Option Groups :=
  if isDateShape (s.take 10) then k (s.take 10) (s.drop 10) else none

/-- Anchored match (`re.match`) of the full pattern
`(.+?)\s+(?:vs|VS|v|V)\s+(.+?)\s+(?:on|ON)\s+(\d{4}-\d{2}-\d{2})`
at the start of `s`, returning the three captured groups of the first
match in Python's backtracking order. -/
def reMatchGroups (s : List Char) : Option Groups :=
  lazyPlus dotChar
    (fun g1 r1 =>
      greedyWS
        (fun r2 =>
          litAlt sepAlts
            (fun r3 =>
              greedyWS
                (fun r4 =>
                  lazyPlus dotChar
                    (fun g2 r5 =>
                      greedyWS
                        (fun r6 =>
                          litAlt onAlts
                            (fun r7 =>
                              greedyWS
                                (fun r8 =>
                                  matchDate (fun g3 _ => some (g1, g2, g3)) r8)
                                r7)
                            r6)
                        r5)
                    [] r4)
                r3)
            r2)
        r1)
    [] s

/-- Translation of `parse_user_input` from `src/utils/input_parser.py`: strip the
input, reject the empty string, match the pattern, and return the three
groups each stripped of surrounding whitespace. -/
def parse_user_input (input_text : String) : Option (String × String × String) :=
  let t := pyStrip input_text.toList
  if t.isEmpty then none
  else
    match reMatchGroups t with
    | none => none
    | some (g1, g2, g3) => some (⟨pyStrip g1⟩, ⟨pyStrip g2⟩, ⟨pyStrip g3⟩)

/-! ## `src/utils/api_client.py`

`_make_request` either returns the parsed JSON body of a 200 response or
a dictionary `{"errors": <string>}` describing the failure; it catches
timeouts, connection errors, other request exceptions and JSON decoding
errors, so it never raises.  The response body is modelled by
`ApiResponse`, generic in the element type of the `"response"` array
(fixtures for `find_fixture`, per-team player blocks for
`get_player_stats`). -/

/-- Value of the `"errors"` field of a response body: API-Football uses
an array (or an error string injected by `_make_request`). -/
inductive ErrorsVal where
  | str (s : String)
  | arr (xs : List String)
deriving DecidableEq, Repr

/-- Parsed JSON body of an API response, keeping the two fields the code
reads: `"errors"` (absent, string, or array) and `"response"` (absent or
an array of payload items). -/
structure ApiResponse (α : Type) where
  errors : Option ErrorsVal := none
  response : Option (List α) := none
deriving DecidableEq, Repr

/-- Result of the body of a completed HTTP exchange: parsed JSON or a
malformed (non-JSON) body. -/
inductive BodyParse (α : Type) where
  | parsed (body : ApiResponse α)
  | invalid (text : String)
deriving DecidableEq, Repr

/-- Outcome of the underlying `requests.get` call in `_make_request`:
a completed exchange with a status code and a body, a 30-second timeout,
a connection failure, or another request exception. -/
inductive HttpOutcome (α : Type) where
  | completed (status : Nat) (body : BodyParse α)
  | timeout
  | connectionError (msg : String)
  | requestError (msg : String)
deriving DecidableEq, Repr

/-- Translation of `_make_request`: maps every outcome of the HTTP primitive to a
response dictionary.  Status 401/403/429, any other non-200 status, a
timeout, a connection failure, another request exception and a malformed
200 body all yield `{"errors": <string>}`; a 200 with a valid JSON body
is returned as parsed.  (The Python function returns in every branch —
never raising is modelled by totality.) -/
def make_request {α : Type} (out : HttpOutcome α) : ApiResponse α :=
  match out with
  | .completed status body =>
    if status = 401 then
      { errors := some (.str "Authentication failed: Invalid API key (status 401)") }
    else if status = 403 then
      { errors := some (.str "Access denied (status 403)") }
    else if status = 429 then
      { errors := some (.str "Rate limit exceeded (status 429)") }
    else if status ≠ 200 then
      { errors := some (.str ("HTTP " ++ toString status)) }
    else
      match body with
      | .parsed b => b
      | .invalid text => { errors := some (.str ("Request failed: " ++ text)) }
  | .timeout => { errors := some (.str "Request timeout") }
  | .connectionError msg => { errors := some (.str ("Connection error: " ++ msg)) }
  | .requestError msg => { errors := some (.str ("Request failed: " ++ msg)) }

/-- First error check of `find_fixture`/`get_player_stats`:
`"errors" in response and isinstance(response["errors"], str)`. -/
def hasStringErrors {α : Type} (r : ApiResponse α) : Bool :=
  match r.errors with
  | some (.str _) => true
  | _ => false

/-- Second error check: `response.get("errors") and len(response["errors"]) > 0`
— the field is present, truthy, and nonempty (for both strings and
arrays, Python truthiness and `len > 0` coincide with nonemptiness). -/
def hasNonemptyErrors {α : Type} (r : ApiResponse α) : Bool :=
  match r.errors with
  | some (.str s) => s ≠ ""
  | some (.arr xs) => !xs.isEmpty
  | none => false

/-- The `"teams"` block of a fixture: names of the home and away teams,
the only parts `find_fixture` reads. -/
structure FixtureTeams where
  home : String
  away : String
deriving DecidableEq, Repr

/-- A fixture as consumed by `find_fixture`: an identifier (standing for
the rest of the payload) and an optional `"teams"` block
(`fixture.get("teams")` falsy — absent or null — makes the loop skip the
entry). -/
structure Fixture where
  fixtureId : Nat
  teams : Option FixtureTeams
deriving DecidableEq, Repr

/-- The team comparison of `find_fixture`'s loop: lower-case both names,
and test `team1`/`team2` as substrings of home/away in either
assignment. -/
def teamsMatch (team1 team2 : String) (tn : FixtureTeams) : Bool :=
  let home_team := pyLower tn.home
  let away_team := pyLower tn.away
  let team1_lower := pyLower team1
  let team2_lower := pyLower team2
  (pySubstr team1_lower home_team && pySubstr team2_lower away_team) ||
  (pySubstr team1_lower away_team && pySubstr team2_lower home_team)

/-- One fixture of the scanned list matches when its `"teams"` block is
present and the team comparison succeeds. -/
def fixtureMatches (team1 team2 : String) (f : Fixture) : Bool :=
  match f.teams with
  | none => false
  | some tn => teamsMatch team1 team2 tn

/-- The scanning loop of `find_fixture`: first fixture in list order
with a present `"teams"` block whose names match, else `None`. -/
def scanFixtures (team1 team2 : String) : List Fixture → Option Fixture
  | [] => none
  | f :: rest =>
    match f.teams with
    | none => scanFixtures team1 team2 rest
    | some tn =>
      if teamsMatch team1 team2 tn then some f
      else scanFixtures team1 team2 rest

/-- Translation of `find_fixture`: issue the fixtures-by-date request (its outcome is
the `out` argument; `date` only feeds the query parameters), return
`None` on either error check, and otherwise scan
`response.get("response", [])` for the first matching fixture. -/
def find_fixture (team1 team2 : String) (date : String)
    (out : HttpOutcome Fixture) : Option Fixture :=
  let _ := date
  let response := make_request out
  if hasStringErrors response then none
  else if hasNonemptyErrors response then none
  else scanFixtures team1 team2 (response.response.getD [])

/-! ## `src/tools/football_tools.py`

The per-team player statistics blocks returned by
`get_player_stats` and consumed by `determine_mvp` /
`_create_player_summary`.  Absent sub-objects and absent or null fields
are both modelled by `none` (the code reads them uniformly through
`.get`, defaulting to `{}` and `None` respectively). -/

/-- The `"games"` sub-object of a statistics entry. -/
structure GamesStats where
  minutes : Option Int := none
  position : Option String := none
  rating : Option String := none
deriving DecidableEq, Repr

/-- The `"goals"` sub-object. -/
structure GoalsStats where
  total : Option Int := none
  assists : Option Int := none
  saves : Option Int := none
deriving DecidableEq, Repr

/-- The `"shots"` sub-object. -/
structure ShotsStats where
  total : Option Int := none
  «on» : Option Int := none
deriving DecidableEq, Repr

/-- The `"passes"` sub-object. -/
structure PassesStats where
  total : Option Int := none
  accuracy : Option Int := none
  key : Option Int := none
deriving DecidableEq, Repr

/-- The `"tackles"` sub-object. -/
structure TacklesStats where
  total : Option Int := none
  interceptions : Option Int := none
deriving DecidableEq, Repr

/-- The `"duels"` sub-object. -/
structure DuelsStats where
  total : Option Int := none
  won : Option Int := none
deriving DecidableEq, Repr

/-- The `"cards"` sub-object. -/
structure CardsStats where
  yellow : Option Int := none
  red : Option Int := none
deriving DecidableEq, Repr

/-- One element of a player's `"statistics"` array. -/
structure StatEntry where
  games : GamesStats := {}
  goals : GoalsStats := {}
  shots : ShotsStats := {}
  passes : PassesStats := {}
  tackles : TacklesStats := {}
  duels : DuelsStats := {}
  cards : CardsStats := {}
deriving DecidableEq, Repr

/-- The empty statistics entry `{}` used when a player has no
`"statistics"` array. -/
def emptyStatEntry : StatEntry := {}

/-- One element of a team block's `"players"` array: the player's name
and the `"statistics"` array. -/
structure PlayerEntry where
  name : String
  statistics : List StatEntry := []
deriving DecidableEq, Repr

/-- One element of the `get_player_stats` response: a team name and its
players. -/
structure TeamStats where
  teamName : String
  players : List PlayerEntry := []
deriving DecidableEq, Repr

/-- Translation of `get_player_stats`: error outcomes and upstream errors
yield the empty list; otherwise `response.get("response", [])` is
returned (an empty list also yields the empty list — the code returns
`[]` when `stats` is falsy and `stats` unchanged otherwise). -/
def get_player_stats (out : HttpOutcome TeamStats) : List TeamStats :=
  let response := make_request out
  if hasStringErrors response then []
  else if hasNonemptyErrors response then []
  else
    let stats := response.response.getD []
    if stats.isEmpty then [] else stats

/-- The minutes-played value `determine_mvp` computes for one player:
`statistics[0]["games"]["minutes"]` when the `"statistics"` array is
present and nonempty, kept only when `is not None` and `> 0`, else 0. -/
def playedMinutes (p : PlayerEntry) : Int :=
  match p.statistics.head? with
  | some st =>
    match st.games.minutes with
    | some m => if m > 0 then m else 0
    | none => 0
  | none => 0

/-- The filtering predicate of `determine_mvp`: keep a player exactly
when `played_minutes > 5`. -/
def keepPlayer (p : PlayerEntry) : Bool :=
  playedMinutes p > 5

/-- The filtering pass of `determine_mvp`, translated from its loop: for
each team append a copy with only the kept players, counting all players
and the kept players. -/
def filterPass (stats : List TeamStats) : List TeamStats × Nat × Nat :=
  stats.foldl
    (fun acc team =>
      let inner :=
        team.players.foldl
          (fun pacc player =>
            if keepPlayer player then (pacc.1 ++ [player], pacc.2.1 + 1, pacc.2.2 + 1)
            else (pacc.1, pacc.2.1 + 1, pacc.2.2))
          ([], 0, 0)
      (acc.1 ++ [{ team with players := inner.1 }],
       acc.2.1 + inner.2.1, acc.2.2 + inner.2.2))
    ([], 0, 0)

/-- The per-player portion of `_create_player_summary`, translated
statement by statement from its `summary +=` sequence.  All counting
fields go through Python's `x or 0`; `position` and `rating` through
`x or "Unknown"` / `x or "N/A"`; `passes_accuracy` is read raw and
tested with `is not None`. -/
def playerLine (player : PlayerEntry) : String :=
  let stats := player.statistics.head?.getD emptyStatEntry
  let minutes := pyOrInt stats.games.minutes 0
  let position := pyOrStr stats.games.position "Unknown"
  let rating := pyOrStr stats.games.rating "N/A"
  let goals := pyOrInt stats.goals.total 0
  let assists := pyOrInt stats.goals.assists 0
  let saves := pyOrInt stats.goals.saves 0
  let shots_total := pyOrInt stats.shots.total 0
  let shots_on_target := pyOrInt stats.shots.«on» 0
  let passes_total := pyOrInt stats.passes.total 0
  let passes_accuracy := stats.passes.accuracy
  let key_passes := pyOrInt stats.passes.key 0
  let tackles_total := pyOrInt stats.tackles.total 0
  let interceptions := pyOrInt stats.tackles.interceptions 0
  let duels_total := pyOrInt stats.duels.total 0
  let duels_won := pyOrInt stats.duels.won 0
  let yellow_cards := pyOrInt stats.cards.yellow 0
  let red_cards := pyOrInt stats.cards.red 0
  let s := "• " ++ player.name ++ " (" ++ position ++ ") - " ++ toString minutes ++ "min"
  let s := if rating ≠ "N/A" then s ++ ", Rating: " ++ rating else s
  let s := if goals > 0 then s ++ ", Goals: " ++ toString goals else s
  let s := if assists > 0 then s ++ ", Assists: " ++ toString assists else s
  let s := if saves > 0 then s ++ ", Saves: " ++ toString saves else s
  let s := s ++ "\n"
  let s :=
    if shots_total > 0 || passes_total > 0 then
      let a := s ++ "  📊 Attack: " ++ toString shots_total ++ " shots (" ++
        toString shots_on_target ++ " on target), " ++ toString passes_total ++ " passes"
      let a :=
        match passes_accuracy with
        | some acc => a ++ " (" ++ toString acc ++ "% acc)"
        | none => a
      let a := if key_passes > 0 then a ++ ", " ++ toString key_passes ++ " key passes" else a
      a ++ "\n"
    else s
  let s :=
    if tackles_total > 0 || interceptions > 0 || duels_total > 0 then
      let d := s ++ "  🛡️ Defense: " ++ toString tackles_total ++ " tackles, " ++
        toString interceptions ++ " interceptions"
      let d :=
        if duels_total > 0 then
          d ++ ", " ++ toString duels_won ++ "/" ++ toString duels_total ++ " duels won"
        else d
      d ++ "\n"
    else s
  let s :=
    if yellow_cards > 0 || red_cards > 0 then
      s ++ "  🟨 Cards: " ++ toString yellow_cards ++ " yellow, " ++ toString red_cards ++ " red\n"
    else s
  s ++ "\n"

/-- Translation of `_create_player_summary`: a header per team followed by the
per-player lines. -/
def createPlayerSummary (stats_data : List TeamStats) : String :=
  stats_data.foldl
    (fun acc team =>
      team.players.foldl (fun a p => a ++ playerLine p)
        (acc ++ "\n=== " ++ team.teamName ++ " ===\n"))
    ""

/-- The MVP prompt built by `determine_mvp` around the digest (the
triple-quoted f-string, with its indentation). -/
def mvpPrompt (summary : String) : String :=
  "\n            Based on the following player statistics summary from a football match, determine who was the Most Valuable Player (MVP) and explain why.\n            \n            Note: Only players who played more than 5 minutes are included in this analysis.\n            \n            " ++ summary ++ "\n            \n            Analyze key metrics such as:\n            - Goals and assists (most important)\n            - Overall rating\n            - Passing accuracy and key passes  \n            - Defensive actions (tackles, interceptions, blocks)\n            - Goalkeeper saves (if applicable)\n            - Minutes played and impact on the game\n            \n            Choose ONE player as MVP and provide a detailed explanation focusing on their most impactful contributions.\n            Format your response as: \"MVP: [Player Name] - [Detailed explanation of why they deserve MVP]\"\n            "

/-- Translation of `determine_mvp`: fetch the statistics (the request outcome is the
`out` argument), return the not-found message when empty, otherwise
filter the players by minutes, build the digest and prompt, delegate to
the language model (`llm` maps a prompt to its completion text) and
append the fixed summary line. -/
def determine_mvp (llm : String → String) (fixture_id : Int)
    (out : HttpOutcome TeamStats) : String :=
  let stats_data := get_player_stats out
  if stats_data.isEmpty then
    "No player statistics found for fixture " ++ toString fixture_id
  else
    let fp := filterPass stats_data
    let filtered_stats := fp.1
    let total_players := fp.2.1
    let filtered_players := fp.2.2
    let summary := createPlayerSummary filtered_stats
    let prompt := mvpPrompt summary
    let response_text := llm prompt
    response_text ++ "\n\n📊 Analysis based on " ++ toString filtered_players ++
      " players (filtered out " ++ toString (total_players - filtered_players) ++
      " who played ≤5 minutes)"

/-! ## `src/main.py`

One iteration of the interaction loop.  The outcome of `input()` is an
`InputEvent`: a line, end-of-input (`EOFError`), or `KeyboardInterrupt`.
The agent run is abstracted by a function from the parsed triple to an
`AgentResult`; exceptions it raises are modelled explicitly
(`KeyboardInterrupt` is a `BaseException`, everything the generic
`except Exception` handler catches — including `EOFError` — is
`exception`). -/

/-- Outcome of one `input()` call. -/
inductive InputEvent where
  | line (s : String)
  | eof
  | interrupt
deriving DecidableEq, Repr

/-- Result of running the agent on one parsed query. -/
inductive AgentResult where
  | ok (answer : String)
  | raisedInterrupt
  | raisedException (msg : String)
deriving DecidableEq, Repr

/-- What one loop iteration does next: leave the loop (`break`) or go to
the next iteration (`continue`, also the implicit end of the body). -/
inductive LoopAction where
  | stop
  | next
deriving DecidableEq, Repr

/-- One iteration of `main`'s `while True` loop. `KeyboardInterrupt`
breaks; `EOFError` from `input()` is caught by the generic
`except Exception` handler, which logs and continues; a stripped input
whose lower-casing is an exit keyword breaks; empty and unparseable
inputs continue; an agent run continues unless it raises
`KeyboardInterrupt`. -/
def loopIter (agent : String → String → String → AgentResult)
    (ev : InputEvent) : LoopAction :=
  match ev with
  | .interrupt => .stop
  | .eof => .next
  | .line raw =>
    let user_input := pyStripS raw
    if ["exit", "quit", "q"].contains (pyLower user_input) then .stop
    else if user_input = "" then .next
    else
      match parse_user_input user_input with
      | none => .next
      | some (team1, team2, date) =>
        match agent team1 team2 date with
        | .ok _ => .next
        | .raisedInterrupt => .stop
        | .raisedException _ => .next

/-- The loop has left within the first `n` iterations of the event
stream `evs` exactly when some iteration among them stops. -/
def exitsWithin (agent : String → String → String → AgentResult)
    (evs : Nat → InputEvent) (n : Nat) : Bool :=
  (List.range n).any fun i => loopIter agent (evs i) == .stop

/-! ## Specification-side definitions

Definitions below follow the specification's words, for comparison with
the source-translated definitions above. -/

/-- The language of the parser's pattern, from the spec's grammar
`<team1> (vs|v) <team2> on <YYYY-MM-DD>`: the (stripped) input is a
nonempty newline-free team name, whitespace, a separator, whitespace, a
second team name, whitespace, an `on` token, whitespace, a ten-character
date of shape `\d{4}-\d{2}-\d{2}`, and an arbitrary remainder (the
pattern is matched as a prefix). `t1`, `t2`, `d` are the three captured
groups of the decomposition. -/
def Decomp (s t1 t2 d : List Char) : Prop :=
  ∃ w1 sep w2 w3 onT w4 rest,
    s = t1 ++ (w1 ++ (sep ++ (w2 ++ (t2 ++ (w3 ++ (onT ++ (w4 ++ (d ++ rest)))))))) ∧
    t1 ≠ [] ∧ (∀ c ∈ t1, dotChar c = true) ∧
    w1 ≠ [] ∧ (∀ c ∈ w1, pyWS c = true) ∧
    sep ∈ sepAlts ∧
    w2 ≠ [] ∧ (∀ c ∈ w2, pyWS c = true) ∧
    t2 ≠ [] ∧ (∀ c ∈ t2, dotChar c = true) ∧
    w3 ≠ [] ∧ (∀ c ∈ w3, pyWS c = true) ∧
    onT ∈ onAlts ∧
    w4 ≠ [] ∧ (∀ c ∈ w4, pyWS c = true) ∧
    isDateShape d = true

/-- A positive optional counting field: present and `> 0` (under
`x or 0`, this is exactly when the code's derived value is positive). -/
def optPos (v : Option Int) : Bool :=
  match v with
  | some n => 0 < n
  | none => false

/-- The outcomes of the HTTP primitive enumerated by the error-handling
claim: any non-200 status (401, 403, 429 and the rest), a malformed
body, a timeout, a connection failure, another request exception, or a
200 response whose `errors` field is a nonempty array. -/
def isFailureOutcome {α : Type} : HttpOutcome α → Prop
  | .completed status (.parsed b) =>
    status ≠ 200 ∨ ∃ xs, b.errors = some (.arr xs) ∧ xs ≠ []
  | .completed _ (.invalid _) => True
  | .timeout => True
  | .connectionError _ => True
  | .requestError _ => True

/-- Mandatory head of a per-player digest entry, from the spec: name,
position and minutes always appear. -/
def mandatoryLineSpec (player : PlayerEntry) : String :=
  let st := player.statistics.head?.getD emptyStatEntry
  "• " ++ player.name ++ " (" ++ pyOrStr st.games.position "Unknown" ++ ") - " ++
    toString (pyOrInt st.games.minutes 0) ++ "min"

/-- Rating clause, from the spec as amended: appended exactly when the
rating field is present with a truthy value other than `"N/A"`. -/
def ratingClauseSpec (st : StatEntry) : String :=
  match st.games.rating with
  | some r => if r ≠ "" ∧ r ≠ "N/A" then ", Rating: " ++ r else ""
  | none => ""

/-- Goals clause, from the spec: appended exactly when positive. -/
def goalsClauseSpec (st : StatEntry) : String :=
  if optPos st.goals.total then ", Goals: " ++ toString (pyOrInt st.goals.total 0) else ""

/-- Assists clause, from the spec: appended exactly when positive. -/
def assistsClauseSpec (st : StatEntry) : String :=
  if optPos st.goals.assists then ", Assists: " ++ toString (pyOrInt st.goals.assists 0) else ""

/-- Saves clause, from the spec: appended exactly when positive. -/
def savesClauseSpec (st : StatEntry) : String :=
  if optPos st.goals.saves then ", Saves: " ++ toString (pyOrInt st.goals.saves 0) else ""

/-- Attack line, from the spec: appended exactly when shots-total or
passes-total is positive; passing accuracy shown exactly when present;
key passes shown exactly when positive. -/
def attackLineSpec (st : StatEntry) : String :=
  if optPos st.shots.total || optPos st.passes.total then
    "  📊 Attack: " ++ toString (pyOrInt st.shots.total 0) ++ " shots (" ++
      toString (pyOrInt st.shots.«on» 0) ++ " on target), " ++
      toString (pyOrInt st.passes.total 0) ++ " passes" ++
      (match st.passes.accuracy with
       | some acc => " (" ++ toString acc ++ "% acc)"
       | none => "") ++
      (if optPos st.passes.key then ", " ++ toString (pyOrInt st.passes.key 0) ++ " key passes"
       else "") ++ "\n"
  else ""

/-- Defense line, from the spec: appended exactly when tackles,
interceptions or duels-total is positive; duels won/total shown exactly
when duels-total is positive. -/
def defenseLineSpec (st : StatEntry) : String :=
  if optPos st.tackles.total || optPos st.tackles.interceptions || optPos st.duels.total then
    "  🛡️ Defense: " ++ toString (pyOrInt st.tackles.total 0) ++ " tackles, " ++
      toString (pyOrInt st.tackles.interceptions 0) ++ " interceptions" ++
      (if optPos st.duels.total then
        ", " ++ toString (pyOrInt st.duels.won 0) ++ "/" ++
          toString (pyOrInt st.duels.total 0) ++ " duels won"
       else "") ++ "\n"
  else ""

/-- Cards line, from the spec: appended exactly when yellow or red cards
are positive. -/
def cardsLineSpec (st : StatEntry) : String :=
  if optPos st.cards.yellow || optPos st.cards.red then
    "  🟨 Cards: " ++ toString (pyOrInt st.cards.yellow 0) ++ " yellow, " ++
      toString (pyOrInt st.cards.red 0) ++ " red\n"
  else ""

/-! Staged views of the `summary +=` sequence of `playerLine`: each
`digestFromX st s` runs the remaining `+=` statements of the source from
the numbered stage on, starting from the accumulated text `s`.
`playerLine` is definitionally the composition of the stages. -/

/-- Stage 8 of the per-player digest: the cards line and the closing
blank line. -/
def digestFromCards (st : StatEntry) (s : String) : String :=
  let yellow_cards := pyOrInt st.cards.yellow 0
  let red_cards := pyOrInt st.cards.red 0
  let s :=
    if yellow_cards > 0 || red_cards > 0 then
      s ++ "  🟨 Cards: " ++ toString yellow_cards ++ " yellow, " ++ toString red_cards ++ " red\n"
    else s
  s ++ "\n"

/-- Stage 7: the defense line, then the rest. -/
def digestFromDefense (st : StatEntry) (s : String) : String :=
  let tackles_total := pyOrInt st.tackles.total 0
  let interceptions := pyOrInt st.tackles.interceptions 0
  let duels_total := pyOrInt st.duels.total 0
  let duels_won := pyOrInt st.duels.won 0
  let s :=
    if tackles_total > 0 || interceptions > 0 || duels_total > 0 then
      let d := s ++ "  🛡️ Defense: " ++ toString tackles_total ++ " tackles, " ++
        toString interceptions ++ " interceptions"
      let d :=
        if duels_total > 0 then
          d ++ ", " ++ toString duels_won ++ "/" ++ toString duels_total ++ " duels won"
        else d
      d ++ "\n"
    else s
  digestFromCards st s

/-- Stage 6: the attack line, then the rest. -/
def digestFromAttack (st : StatEntry) (s : String) : String :=
  let shots_total := pyOrInt st.shots.total 0
  let shots_on_target := pyOrInt st.shots.«on» 0
  let passes_total := pyOrInt st.passes.total 0
  let passes_accuracy := st.passes.accuracy
  let key_passes := pyOrInt st.passes.key 0
  let s :=
    if shots_total > 0 || passes_total > 0 then
      let a := s ++ "  📊 Attack: " ++ toString shots_total ++ " shots (" ++
        toString shots_on_target ++ " on target), " ++ toString passes_total ++ " passes"
      let a :=
        match passes_accuracy with
        | some acc => a ++ " (" ++ toString acc ++ "% acc)"
        | none => a
      let a := if key_passes > 0 then a ++ ", " ++ toString key_passes ++ " key passes" else a
      a ++ "\n"
    else s
  digestFromDefense st s

/-- Stage 5: the saves clause, the newline closing the headline, then
the rest. -/
def digestFromSaves (st : StatEntry) (s : String) : String :=
  let saves := pyOrInt st.goals.saves 0
  let s := if saves > 0 then s ++ ", Saves: " ++ toString saves else s
  digestFromAttack st (s ++ "\n")

/-- Stage 4: the assists clause, then the rest. -/
def digestFromAssists (st : StatEntry) (s : String) : String :=
  let assists := pyOrInt st.goals.assists 0
  let s := if assists > 0 then s ++ ", Assists: " ++ toString assists else s
  digestFromSaves st s

/-- Stage 3: the goals clause, then the rest. -/
def digestFromGoals (st : StatEntry) (s : String) : String :=
  let goals := pyOrInt st.goals.total 0
  let s := if goals > 0 then s ++ ", Goals: " ++ toString goals else s
  digestFromAssists st s

/-- Stage 2: the rating clause, then the rest. -/
def digestFromRating (st : StatEntry) (s : String) : String :=
  let rating := pyOrStr st.games.rating "N/A"
  let s := if rating ≠ "N/A" then s ++ ", Rating: " ++ rating else s
  digestFromGoals st s

/-! ## Concrete inputs used by witnesses and counterexamples -/

/-- The Real Madrid / Barcelona fixture of the order-insensitivity
claim. -/
def rmBarcaFixture : Fixture :=
  { fixtureId := 1, teams := some { home := "Real Madrid", away := "Barcelona" } }

/-- A second fixture on the same date, matching the same query, to
exhibit list-order tie-breaking. -/
def rmBarcaFixture2 : Fixture :=
  { fixtureId := 2, teams := some { home := "Real Madrid CF", away := "FC Barcelona" } }

/-- A player with `minutes = 3` (to be excluded by the filter). -/
def playerMin3 : PlayerEntry :=
  { name := "Three", statistics := [{ games := { minutes := some 3 } }] }

/-- A player with `minutes = 6` (to be included by the filter). -/
def playerMin6 : PlayerEntry :=
  { name := "Six", statistics := [{ games := { minutes := some 6 } }] }

/-- A player with `minutes = null` (to be excluded by the filter). -/
def playerMinNull : PlayerEntry :=
  { name := "Null", statistics := [{ games := { minutes := none } }] }

/-- A team holding the three filter-demonstration players. -/
def demoTeam : TeamStats :=
  { teamName := "Demo", players := [playerMin3, playerMin6, playerMinNull] }

/-- A player whose rating field is present but empty (Python-falsy). -/
def playerEmptyRating : PlayerEntry :=
  { name := "X", statistics := [{ games := { minutes := some 90, rating := some "" } }] }

/-- The same player with the rating field absent. -/
def playerNoRating : PlayerEntry :=
  { name := "X", statistics := [{ games := { minutes := some 90, rating := none } }] }

/-- A player with two goals and no assists (digest example). -/
def playerTwoGoals : PlayerEntry :=
  { name := "Striker",
    statistics := [{ games := { minutes := some 90 },
                     goals := { total := some 2, assists := some 0 } }] }

/-- A 90-minute player for the end-to-end summary-line example. -/
def playerFull (nm : String) : PlayerEntry :=
  { name := nm, statistics := [{ games := { minutes := some 90 } }] }

/-- Two teams of one 90-minute player each. -/
def twoTeamStats : List TeamStats :=
  [{ teamName := "Alpha", players := [playerFull "A1"] },
   { teamName := "Beta", players := [playerFull "B1"] }]

/-- An agent that always answers without raising. -/
def okAgent : String → String → String → AgentResult :=
  fun _ _ _ => .ok "done"

/-! ## Lemmas: the backtracking matcher -/

theorem lazyPlus_nil (p : Char → Bool) (k : List Char → List Char → Option Groups)
    (acc : List Char) : lazyPlus p k acc [] = none := rfl

theorem lazyPlus_cons (p : Char → Bool) (k : List Char → List Char → Option Groups)
    (acc : List Char) (c : Char) (rest : List Char) :
    lazyPlus p k acc (c :: rest) =
      if p c then
        match k (acc ++ [c]) rest with
        | some r => some r
        | none => lazyPlus p k (acc ++ [c]) rest
      else none := rfl

theorem lazyPlus_isSome (p : Char → Bool) (k : List Char → List Char → Option Groups) :
    ∀ (s acc : List Char),
      (lazyPlus p k acc s).isSome = true ↔
        ∃ g r, s = g ++ r ∧ g ≠ [] ∧ (∀ c ∈ g, p c = true) ∧
          (k (acc ++ g) r).isSome = true := by
  intro s
  induction s with
  | nil =>
    intro acc
    constructor
    · intro h
      simp [lazyPlus_nil] at h
    · rintro ⟨g, r, heq, hne, -, -⟩
      exact absurd (List.append_eq_nil.mp heq.symm).1 hne
  | cons c rest ih =>
    intro acc
    by_cases hp : p c = true
    · rw [lazyPlus_cons, if_pos hp]
      cases hk : k (acc ++ [c]) rest with
      | some v =>
        simp only [hk]
        constructor
        · intro _
          exact ⟨[c], rest, rfl, by simp, by simp [hp], by simp [hk]⟩
        · intro _
          rfl
      | none =>
        simp only [hk]
        rw [ih (acc ++ [c])]
        constructor
        · rintro ⟨g, r, hrest, -, hall, hsome⟩
          refine ⟨c :: g, r, by simp [hrest], by simp, ?_, ?_⟩
          · intro x hx
            rcases List.mem_cons.mp hx with h | h
            · exact h ▸ hp
            · exact hall x h
          · rwa [show acc ++ c :: g = (acc ++ [c]) ++ g by simp]
        · rintro ⟨g, r, heq, hg, hall, hsome⟩
          rcases g with - | ⟨g0, gtail⟩
          · exact absurd rfl hg
          · rw [List.cons_append] at heq
            rw [List.cons.injEq] at heq
            obtain ⟨hc, hrest⟩ := heq
            subst hc
            rcases gtail with - | ⟨d, dt⟩
            · simp only [List.nil_append] at hrest
              subst hrest
              rw [hk] at hsome
              simp at hsome
            · refine ⟨d :: dt, r, hrest, by simp, ?_, ?_⟩
              · intro x hx
                exact hall x (List.mem_cons_of_mem c hx)
              · rwa [show acc ++ [c] ++ (d :: dt) = acc ++ c :: d :: dt by simp]
    · rw [lazyPlus_cons, if_neg hp]
      constructor
      · intro h
        simp at h
      · rintro ⟨g, r, heq, hg, hall, -⟩
        rcases g with - | ⟨g0, gtail⟩
        · exact absurd rfl hg
        · rw [List.cons_append, List.cons.injEq] at heq
          exact absurd (heq.1 ▸ hall g0 (by simp)) hp

theorem lazyPlus_eq_some (p : Char → Bool) (k : List Char → List Char → Option Groups) :
    ∀ (s acc : List Char) (v : Groups), lazyPlus p k acc s = some v →
      ∃ g r, s = g ++ r ∧ g ≠ [] ∧ (∀ c ∈ g, p c = true) ∧ k (acc ++ g) r = some v := by
  intro s
  induction s with
  | nil =>
    intro acc v h
    simp [lazyPlus_nil] at h
  | cons c rest ih =>
    intro acc v h
    rw [lazyPlus_cons] at h
    by_cases hp : p c = true
    · rw [if_pos hp] at h
      cases hk : k (acc ++ [c]) rest with
      | some w =>
        rw [hk] at h
        refine ⟨[c], rest, rfl, by simp, by simp [hp], ?_⟩
        rw [hk]
        exact congrArg some (Option.some.injEq _ _ ▸ h ▸ rfl)
      | none =>
        rw [hk] at h
        obtain ⟨g, r, hrest, -, hall, hsome⟩ := ih (acc ++ [c]) v h
        refine ⟨c :: g, r, by simp [hrest], by simp, ?_, ?_⟩
        · intro x hx
          rcases List.mem_cons.mp hx with hxc | hxm
          · exact hxc ▸ hp
          · exact hall x hxm
        · rwa [show acc ++ c :: g = (acc ++ [c]) ++ g by simp]
    · rw [if_neg hp] at h
      simp at h

theorem greedyTry_isSome (k : List Char → Option Groups) (s : List Char) :
    ∀ n : Nat, (greedyTry k s n).isSome = true ↔
      ∃ i, 1 ≤ i ∧ i ≤ n ∧ (k (s.drop i)).isSome = true := by
  intro n
  induction n with
  | zero =>
    constructor
    · intro h
      simp [greedyTry] at h
    · rintro ⟨i, h1, h2, -⟩
      omega
  | succ m ih =>
    constructor
    · intro h
      rw [show greedyTry k s (m + 1) =
            match k (s.drop (m + 1)) with
            | some r => some r
            | none => greedyTry k s m from rfl] at h
      cases hk : k (s.drop (m + 1)) with
      | some v =>
        exact ⟨m + 1, by omega, le_refl _, by simp [hk]⟩
      | none =>
        rw [hk] at h
        obtain ⟨i, h1, h2, h3⟩ := ih.mp h
        exact ⟨i, h1, by omega, h3⟩
    · rintro ⟨i, h1, h2, h3⟩
      rw [show greedyTry k s (m + 1) =
            match k (s.drop (m + 1)) with
            | some r => some r
            | none => greedyTry k s m from rfl]
      cases hk : k (s.drop (m + 1)) with
      | some v => simp
      | none =>
        rcases Nat.lt_or_ge i (m + 1) with hlt | hge
        · exact ih.mpr ⟨i, h1, by omega, h3⟩
        · have : i = m + 1 := by omega
          subst this
          rw [hk] at h3
          simp at h3

theorem greedyTry_eq_some (k : List Char → Option Groups) (s : List Char) :
    ∀ (n : Nat) (v : Groups), greedyTry k s n = some v →
      ∃ i, 1 ≤ i ∧ i ≤ n ∧ k (s.drop i) = some v := by
  intro n
  induction n with
  | zero =>
    intro v h
    simp [greedyTry] at h
  | succ m ih =>
    intro v h
    rw [show greedyTry k s (m + 1) =
          match k (s.drop (m + 1)) with
          | some r => some r
          | none => greedyTry k s m from rfl] at h
    cases hk : k (s.drop (m + 1)) with
    | some w =>
      rw [hk] at h
      exact ⟨m + 1, by omega, le_refl _, hk.trans h⟩
    | none =>
      rw [hk] at h
      obtain ⟨i, h1, h2, h3⟩ := ih v h
      exact ⟨i, h1, by omega, h3⟩

/-- An all-whitespace list followed by anything: `takeWhile` passes
through the whole first part. -/
theorem takeWhile_append_of_all (p : Char → Bool) :
    ∀ (w r : List Char), (∀ c ∈ w, p c = true) →
      (w ++ r).takeWhile p = w ++ r.takeWhile p := by
  intro w
  induction w with
  | nil => intro r _; simp
  | cons c t ih =>
    intro r hall
    have hc : p c = true := hall c (by simp)
    simp only [List.cons_append, List.takeWhile_cons, hc, if_true]
    rw [ih r fun x hx => hall x (List.mem_cons_of_mem c hx)]

theorem greedyWS_isSome (k : List Char → Option Groups) (s : List Char) :
    (greedyWS k s).isSome = true ↔
      ∃ w r, s = w ++ r ∧ w ≠ [] ∧ (∀ c ∈ w, pyWS c = true) ∧ (k r).isSome = true := by
  rw [greedyWS, greedyTry_isSome]
  constructor
  · rintro ⟨i, h1, h2, h3⟩
    refine ⟨s.take i, s.drop i, (List.take_append_drop i s).symm, ?_, ?_, h3⟩
    · have hlen : (s.takeWhile pyWS).length ≤ s.length :=
        List.Sublist.length_le (List.takeWhile_sublist _)
      have : (s.take i).length = i := by
        rw [List.length_take]
        omega
      intro hnil
      rw [hnil] at this
      simp at this
      omega
    · intro c hc
      have hsub : (s.take i).Sublist (s.takeWhile pyWS) := by
        have : s.take i = (s.takeWhile pyWS).take i := by
          conv_lhs => rw [← List.takeWhile_append_dropWhile pyWS s]
          exact List.take_append_of_le_length h2
        rw [this]
        exact List.take_sublist _ _
      exact List.mem_takeWhile_imp (List.Sublist.mem hc hsub)
  · rintro ⟨w, r, heq, hne, hall, hk⟩
    refine ⟨w.length, ?_, ?_, ?_⟩
    · rcases w with - | ⟨c, t⟩
      · exact absurd rfl hne
      · simp
    · rw [heq, takeWhile_append_of_all pyWS w r hall]
      simp
    · rw [heq, List.drop_left]
      exact hk

theorem greedyWS_eq_some (k : List Char → Option Groups) (s : List Char) (v : Groups) :
    greedyWS k s = some v →
      ∃ w r, s = w ++ r ∧ w ≠ [] ∧ (∀ c ∈ w, pyWS c = true) ∧ k r = some v := by
  intro h
  obtain ⟨i, h1, h2, h3⟩ := greedyTry_eq_some k s _ v h
  refine ⟨s.take i, s.drop i, (List.take_append_drop i s).symm, ?_, ?_, h3⟩
  · have : (s.take i).length = i := by
      have hlen : (s.takeWhile pyWS).length ≤ s.length :=
        List.Sublist.length_le (List.takeWhile_sublist _)
      rw [List.length_take]
      omega
    intro hnil
    rw [hnil] at this
    simp at this
    omega
  · intro c hc
    have hsub : (s.take i).Sublist (s.takeWhile pyWS) := by
      have hti : s.take i = (s.takeWhile pyWS).take i := by
        conv_lhs => rw [← List.takeWhile_append_dropWhile pyWS s]
        exact List.take_append_of_le_length h2
      rw [hti]
      exact List.take_sublist _ _
    exact List.mem_takeWhile_imp (List.Sublist.mem hc hsub)

theorem litAlt_isSome (k : List Char → Option Groups) (s : List Char) :
    ∀ alts : List (List Char), (litAlt alts k s).isSome = true ↔
      ∃ a ∈ alts, ∃ r, s = a ++ r ∧ (k r).isSome = true := by
  intro alts
  induction alts with
  | nil =>
    constructor
    · intro h
      simp [litAlt] at h
    · rintro ⟨a, ha, -⟩
      simp at ha
  | cons a more ih =>
    rw [show litAlt (a :: more) k s =
          match (if a.isPrefixOf s then k (s.drop a.length) else none) with
          | some r => some r
          | none => litAlt more k s from rfl]
    by_cases hpre : a.isPrefixOf s = true
    · rw [if_pos hpre]
      obtain ⟨r0, hr0⟩ := List.isPrefixOf_iff_prefix.mp hpre
      cases hk : k (s.drop a.length) with
      | some v =>
        simp only [hk]
        constructor
        · intro _
          refine ⟨a, by simp, s.drop a.length, ?_, by simp [hk]⟩
          rw [← hr0, List.drop_left]
        · intro _
          rfl
      | none =>
        simp only [hk]
        rw [ih]
        constructor
        · rintro ⟨b, hb, r, heq, hkr⟩
          exact ⟨b, List.mem_cons_of_mem a hb, r, heq, hkr⟩
        · rintro ⟨b, hb, r, heq, hkr⟩
          rcases List.mem_cons.mp hb with hba | hbm
          · subst hba
            have hr : r = s.drop b.length := by
              rw [heq, List.drop_left]
            rw [hr, hk] at hkr
            simp at hkr
          · exact ⟨b, hbm, r, heq, hkr⟩
    · rw [if_neg hpre]
      have hred : (match (none : Option Groups) with
            | some r => some r
            | none => litAlt more k s) = litAlt more k s := rfl
      rw [hred, ih]
      constructor
      · rintro ⟨b, hb, r, heq, hkr⟩
        exact ⟨b, List.mem_cons_of_mem a hb, r, heq, hkr⟩
      · rintro ⟨b, hb, r, heq, hkr⟩
        rcases List.mem_cons.mp hb with hba | hbm
        · subst hba
          exact absurd (List.isPrefixOf_iff_prefix.mpr ⟨r, heq.symm⟩) hpre
        · exact ⟨b, hbm, r, heq, hkr⟩

theorem litAlt_eq_some (k : List Char → Option Groups) (s : List Char) (v : Groups) :
    ∀ alts : List (List Char), litAlt alts k s = some v →
      ∃ a ∈ alts, ∃ r, s = a ++ r ∧ k r = some v := by
  intro alts
  induction alts with
  | nil =>
    intro h
    simp [litAlt] at h
  | cons a more ih =>
    intro h
    rw [show litAlt (a :: more) k s =
          match (if a.isPrefixOf s then k (s.drop a.length) else none) with
          | some r => some r
          | none => litAlt more k s from rfl] at h
    by_cases hpre : a.isPrefixOf s = true
    · rw [if_pos hpre] at h
      obtain ⟨r0, hr0⟩ := List.isPrefixOf_iff_prefix.mp hpre
      cases hk : k (s.drop a.length) with
      | some w =>
        rw [hk] at h
        refine ⟨a, by simp, s.drop a.length, ?_, hk.trans h⟩
        rw [← hr0, List.drop_left]
      | none =>
        rw [hk] at h
        obtain ⟨b, hb, r, heq, hkr⟩ := ih h
        exact ⟨b, List.mem_cons_of_mem a hb, r, heq, hkr⟩
    · rw [if_neg hpre] at h
      obtain ⟨b, hb, r, heq, hkr⟩ := ih h
      exact ⟨b, List.mem_cons_of_mem a hb, r, heq, hkr⟩

theorem isDateShape_length {d : List Char} (h : isDateShape d = true) : d.length = 10 := by
  rw [isDateShape] at h
  simp only [Bool.and_eq_true, beq_iff_eq] at h
  exact h.1.1.1.1.1.1.1.1.1.1

theorem matchDate_isSome (k : List Char → List Char → Option Groups) (s : List Char) :
    (matchDate k s).isSome = true ↔
      ∃ d r, s = d ++ r ∧ isDateShape d = true ∧ (k d r).isSome = true := by
  rw [matchDate]
  by_cases hd : isDateShape (s.take 10) = true
  · rw [if_pos hd]
    constructor
    · intro h
      exact ⟨s.take 10, s.drop 10, (List.take_append_drop 10 s).symm, hd, h⟩
    · rintro ⟨d, r, heq, hshape, hk⟩
      have hlen := isDateShape_length hshape
      have htake : s.take 10 = d := by
        rw [heq, ← hlen, List.take_left]
      have hdrop : s.drop 10 = r := by
        rw [heq, ← hlen, List.drop_left]
      rw [htake, hdrop]
      exact hk
  · rw [if_neg hd]
    constructor
    · intro h
      simp at h
    · rintro ⟨d, r, heq, hshape, -⟩
      have hlen := isDateShape_length hshape
      have : s.take 10 = d := by
        rw [heq, ← hlen, List.take_left]
      exact ((hd (this ▸ hshape)).elim : none.isSome = true)

theorem matchDate_eq_some (k : List Char → List Char → Option Groups) (s : List Char)
    (v : Groups) : matchDate k s = some v →
      ∃ d r, s = d ++ r ∧ isDateShape d = true ∧ k d r = some v := by
  intro h
  rw [matchDate] at h
  by_cases hd : isDateShape (s.take 10) = true
  · rw [if_pos hd] at h
    exact ⟨s.take 10, s.drop 10, (List.take_append_drop 10 s).symm, hd, h⟩
  · rw [if_neg hd] at h
    simp at h

theorem reMatch_isSome_iff (s : List Char) :
    (reMatchGroups s).isSome = true ↔ ∃ t1 t2 d, Decomp s t1 t2 d := by
  rw [reMatchGroups, lazyPlus_isSome]
  constructor
  · rintro ⟨g1, r1, hs, hg1, hall1, h⟩
    simp only [List.nil_append] at h
    rw [greedyWS_isSome] at h
    obtain ⟨w1, r2, hr1, hw1, hallw1, h⟩ := h
    rw [litAlt_isSome] at h
    obtain ⟨sep, hsep, r3, hr2, h⟩ := h
    rw [greedyWS_isSome] at h
    obtain ⟨w2, r4, hr3, hw2, hallw2, h⟩ := h
    rw [lazyPlus_isSome] at h
    obtain ⟨g2, r5, hr4, hg2, hall2, h⟩ := h
    simp only [List.nil_append] at h
    rw [greedyWS_isSome] at h
    obtain ⟨w3, r6, hr5, hw3, hallw3, h⟩ := h
    rw [litAlt_isSome] at h
    obtain ⟨onT, honT, r7, hr6, h⟩ := h
    rw [greedyWS_isSome] at h
    obtain ⟨w4, r8, hr7, hw4, hallw4, h⟩ := h
    rw [matchDate_isSome] at h
    obtain ⟨d, rest, hr8, hshape, -⟩ := h
    refine ⟨g1, g2, d, w1, sep, w2, w3, onT, w4, rest, ?_,
      hg1, hall1, hw1, hallw1, hsep, hw2, hallw2, hg2, hall2, hw3, hallw3,
      honT, hw4, hallw4, hshape⟩
    rw [hs, hr1, hr2, hr3, hr4, hr5, hr6, hr7, hr8]
  · rintro ⟨t1, t2, d, w1, sep, w2, w3, onT, w4, rest, hs,
      ht1, hall1, hw1, hallw1, hsep, hw2, hallw2, ht2, hall2, hw3, hallw3,
      honT, hw4, hallw4, hshape⟩
    refine ⟨t1, w1 ++ (sep ++ (w2 ++ (t2 ++ (w3 ++ (onT ++ (w4 ++ (d ++ rest))))))),
      hs, ht1, hall1, ?_⟩
    simp only [List.nil_append]
    rw [greedyWS_isSome]
    refine ⟨w1, sep ++ (w2 ++ (t2 ++ (w3 ++ (onT ++ (w4 ++ (d ++ rest)))))),
      rfl, hw1, hallw1, ?_⟩
    rw [litAlt_isSome]
    refine ⟨sep, hsep, w2 ++ (t2 ++ (w3 ++ (onT ++ (w4 ++ (d ++ rest))))), rfl, ?_⟩
    rw [greedyWS_isSome]
    refine ⟨w2, t2 ++ (w3 ++ (onT ++ (w4 ++ (d ++ rest)))), rfl, hw2, hallw2, ?_⟩
    rw [lazyPlus_isSome]
    refine ⟨t2, w3 ++ (onT ++ (w4 ++ (d ++ rest))), rfl, ht2, hall2, ?_⟩
    simp only [List.nil_append]
    rw [greedyWS_isSome]
    refine ⟨w3, onT ++ (w4 ++ (d ++ rest)), rfl, hw3, hallw3, ?_⟩
    rw [litAlt_isSome]
    refine ⟨onT, honT, w4 ++ (d ++ rest), rfl, ?_⟩
    rw [greedyWS_isSome]
    refine ⟨w4, d ++ rest, rfl, hw4, hallw4, ?_⟩
    rw [matchDate_isSome]
    exact ⟨d, rest, rfl, hshape, rfl⟩

theorem reMatch_eq_some_decomp (s g1 g2 g3 : List Char)
    (h : reMatchGroups s = some (g1, g2, g3)) : Decomp s g1 g2 g3 := by
  rw [reMatchGroups] at h
  obtain ⟨t1, r1, hs, ht1, hall1, h⟩ := lazyPlus_eq_some _ _ _ _ _ h
  simp only [List.nil_append] at h
  obtain ⟨w1, r2, hr1, hw1, hallw1, h⟩ := greedyWS_eq_some _ _ _ h
  obtain ⟨sep, hsep, r3, hr2, h⟩ := litAlt_eq_some _ _ _ _ h
  obtain ⟨w2, r4, hr3, hw2, hallw2, h⟩ := greedyWS_eq_some _ _ _ h
  obtain ⟨t2, r5, hr4, ht2, hall2, h⟩ := lazyPlus_eq_some _ _ _ _ _ h
  simp only [List.nil_append] at h
  obtain ⟨w3, r6, hr5, hw3, hallw3, h⟩ := greedyWS_eq_some _ _ _ h
  obtain ⟨onT, honT, r7, hr6, h⟩ := litAlt_eq_some _ _ _ _ h
  obtain ⟨w4, r8, hr7, hw4, hallw4, h⟩ := greedyWS_eq_some _ _ _ h
  obtain ⟨d, rest, hr8, hshape, h⟩ := matchDate_eq_some _ _ _ h
  simp only [Option.some.injEq, Prod.mk.injEq] at h
  obtain ⟨h1, h2, h3⟩ := h
  subst h1
  subst h2
  subst h3
  refine ⟨w1, sep, w2, w3, onT, w4, rest, ?_,
    ht1, hall1, hw1, hallw1, hsep, hw2, hallw2, ht2, hall2, hw3, hallw3,
    honT, hw4, hallw4, hshape⟩
  rw [hs, hr1, hr2, hr3, hr4, hr5, hr6, hr7, hr8]

theorem pyWS_false_of_digit {c : Char} (h : c.isDigit = true) : pyWS c = false := by
  by_contra hws
  rw [Bool.not_eq_false, pyWS] at hws
  simp only [Bool.or_eq_true, decide_eq_true_eq] at hws
  rcases hws with ((((h1 | h1) | h1) | h1) | h1) | h1 <;>
    · subst h1
      simp [Char.isDigit] at h

theorem chkAt_get {d : List Char} {i : Nat} {p : Char → Bool}
    (h : chkAt d i p = true) (hi : i < d.length) : p (d.get ⟨i, hi⟩) = true := by
  rw [chkAt, List.get?_eq_get hi] at h
  exact h

theorem isDateShape_no_ws {d : List Char} (h : isDateShape d = true) :
    ∀ c ∈ d, pyWS c = false := by
  have hlen := isDateShape_length h
  intro c hc
  obtain ⟨n, hn⟩ := List.mem_iff_get.mp hc
  rw [isDateShape] at h
  simp only [Bool.and_eq_true, beq_iff_eq] at h
  obtain ⟨⟨⟨⟨⟨⟨⟨⟨⟨⟨-, h0⟩, h1⟩, h2⟩, h3⟩, h4⟩, h5⟩, h6⟩, h7⟩, h8⟩, h9⟩ := h
  rcases n with ⟨i, hilt⟩
  have hi : i < 10 := by rw [← hlen]; exact hilt
  interval_cases i
  · exact hn ▸ pyWS_false_of_digit (chkAt_get h0 hilt)
  · exact hn ▸ pyWS_false_of_digit (chkAt_get h1 hilt)
  · exact hn ▸ pyWS_false_of_digit (chkAt_get h2 hilt)
  · exact hn ▸ pyWS_false_of_digit (chkAt_get h3 hilt)
  · have := chkAt_get h4 hilt
    simp only [decide_eq_true_eq] at this
    rw [hn] at this
    subst this
    decide
  · exact hn ▸ pyWS_false_of_digit (chkAt_get h5 hilt)
  · exact hn ▸ pyWS_false_of_digit (chkAt_get h6 hilt)
  · have := chkAt_get h7 hilt
    simp only [decide_eq_true_eq] at this
    rw [hn] at this
    subst this
    decide
  · exact hn ▸ pyWS_false_of_digit (chkAt_get h8 hilt)
  · exact hn ▸ pyWS_false_of_digit (chkAt_get h9 hilt)

theorem dropWhile_eq_self_of {p : Char → Bool} {l : List Char}
    (h : ∀ c ∈ l, p c = false) : l.dropWhile p = l := by
  cases l with
  | nil => rfl
  | cons c t =>
    rw [List.dropWhile_cons, if_neg]
    simp [h c (by simp)]

theorem pyStrip_eq_self {l : List Char} (h : ∀ c ∈ l, pyWS c = false) : pyStrip l = l := by
  rw [pyStrip, dropWhile_eq_self_of h, dropWhile_eq_self_of, List.reverse_reverse]
  intro c hc
  exact h c (List.mem_reverse.mp hc)

theorem parse_none_of_empty {s : String} (h : pyStrip s.toList = []) :
    parse_user_input s = none := by
  have h' : pyStrip s.data = [] := h
  simp [parse_user_input, String.toList, h']

theorem parse_eq_of_ne {s : String} (h : pyStrip s.toList ≠ []) :
    parse_user_input s =
      match reMatchGroups (pyStrip s.toList) with
      | none => none
      | some (g1, g2, g3) =>
        some (⟨pyStrip g1⟩, ⟨pyStrip g2⟩, ⟨pyStrip g3⟩) := by
  rw [parse_user_input]
  simp only [List.isEmpty_iff, h, if_false]

theorem decomp_nonempty {s t1 t2 d : List Char} (hd : Decomp s t1 t2 d) : s ≠ [] := by
  obtain ⟨w1, sep, w2, w3, onT, w4, rest, hs, ht1, -⟩ := hd
  intro hnil
  rw [hnil] at hs
  exact ht1 (List.append_eq_nil.mp hs.symm).1

/-! ## Claim theorems -/

/-- C2: `parse_user_input` succeeds exactly on strings whose stripped
form matches the grammar `<team1> (vs|v) <team2> on <YYYY-MM-DD>` (the
date matched only as `\d{4}-\d{2}-\d{2}`, with no calendar validation),
and then returns a grammar decomposition's captured groups, teams and
date trimmed; every empty, whitespace-only or non-matching string
returns the single unparseable signal `none`; when all grammar
decompositions agree on the trimmed triple, the result is exactly that
triple. -/
theorem parse_user_input_grammar (s : String) :
    (∀ a b d, parse_user_input s = some (a, b, d) →
      ∃ t1 t2 dd, Decomp (pyStrip s.toList) t1 t2 dd ∧
        a = (⟨pyStrip t1⟩ : String) ∧ b = (⟨pyStrip t2⟩ : String) ∧
        d = (⟨dd⟩ : String)) ∧
    (parse_user_input s = none ↔ ¬ ∃ t1 t2 dd, Decomp (pyStrip s.toList) t1 t2 dd) ∧
    (∀ t1 t2 dd, Decomp (pyStrip s.toList) t1 t2 dd →
      (∀ u1 u2 ee, Decomp (pyStrip s.toList) u1 u2 ee →
        pyStrip u1 = pyStrip t1 ∧ pyStrip u2 = pyStrip t2 ∧ ee = dd) →
      parse_user_input s = some (⟨pyStrip t1⟩, ⟨pyStrip t2⟩, ⟨dd⟩)) := by
  by_cases he : pyStrip s.toList = []
  · have hp := parse_none_of_empty he
    refine ⟨?_, ?_, ?_⟩
    · intro a b d h
      rw [hp] at h
      exact absurd h (by simp)
    · rw [hp]
      simp only [true_iff]
      rintro ⟨t1, t2, dd, hdec⟩
      exact decomp_nonempty hdec he
    · intro t1 t2 dd hdec _
      exact absurd he (decomp_nonempty hdec)
  · have hp := parse_eq_of_ne he
    cases hm : reMatchGroups (pyStrip s.toList) with
    | none =>
      rw [hm] at hp
      have hnone : ¬ ∃ t1 t2 dd, Decomp (pyStrip s.toList) t1 t2 dd := by
        rintro ⟨t1, t2, dd, hdec⟩
        have := (reMatch_isSome_iff (pyStrip s.toList)).mpr ⟨t1, t2, dd, hdec⟩
        rw [hm] at this
        simp at this
      refine ⟨?_, ?_, ?_⟩
      · intro a b d h
        rw [hp] at h
        exact absurd h (by simp)
      · rw [hp]
        simp only [true_iff]
        exact hnone
      · intro t1 t2 dd hdec _
        exact absurd ⟨t1, t2, dd, hdec⟩ hnone
    | some g =>
      obtain ⟨g1, g2, g3⟩ := g
      rw [hm] at hp
      dsimp only at hp
      have hdec0 := reMatch_eq_some_decomp _ _ _ _ hm
      have hg3 : pyStrip g3 = g3 := by
        obtain ⟨w1, sep, w2, w3, onT, w4, rest, -, -, -, -, -, -, -, -, -, -, -, -,
          -, -, -, hshape⟩ := hdec0
        exact pyStrip_eq_self (isDateShape_no_ws hshape)
      refine ⟨?_, ?_, ?_⟩
      · intro a b d h
        rw [hp] at h
        simp only [Option.some.injEq, Prod.mk.injEq] at h
        obtain ⟨ha, hb, hd⟩ := h
        exact ⟨g1, g2, g3, hdec0, ha.symm, hb.symm, by rw [← hd, hg3]⟩
      · rw [hp]
        constructor
        · intro h
          exact absurd h (by simp)
        · intro h
          exact absurd ⟨g1, g2, g3, hdec0⟩ h
      · intro t1 t2 dd hdec huniq
        obtain ⟨hu1, hu2, hu3⟩ := huniq g1 g2 g3 hdec0
        rw [hp, hu1, hu2, ← hu3, hg3]

/-- C2 witness: the theorem applied to a concrete matching input. -/
theorem parse_user_input_grammar_witness :
    ∃ t1 t2 dd, Decomp (pyStrip "Barcelona vs Real Madrid on 2024-03-17".toList) t1 t2 dd ∧
      "Barcelona" = (⟨pyStrip t1⟩ : String) ∧ "Real Madrid" = (⟨pyStrip t2⟩ : String) ∧
      "2024-03-17" = (⟨dd⟩ : String) :=
  (parse_user_input_grammar "Barcelona vs Real Madrid on 2024-03-17").1
    "Barcelona" "Real Madrid" "2024-03-17" (by decide)

/-- C8 counterexample: the claim asserts the separators are
case-insensitive, so `"A Vs B on 2024-01-01"` (mixed-case `Vs`) and
`"A vs B On 2024-01-01"` (mixed-case `On`) should parse like the
all-lowercase input; the code rejects both while accepting the
lowercase one. -/
theorem parse_sep_mixed_case_cex :
    parse_user_input "A Vs B on 2024-01-01" = none ∧
    parse_user_input "A vs B On 2024-01-01" = none ∧
    parse_user_input "A vs B on 2024-01-01" = some ("A", "B", "2024-01-01") := by
  refine ⟨?_, ?_, ?_⟩ <;> decide

/-- C8 as amended: the separators are recognized exactly in the casings
`vs`, `VS`, `v`, `V` and `on`, `ON`.  Any input whose stripped form
decomposes over one of these casings parses successfully, and the four
mixed casings `Vs`, `vS`, `On`, `oN` are not recognized (shown on a
fixed query where the lowercase form succeeds). -/
theorem parse_sep_casings :
    (∀ s t1 t2 dd, Decomp (pyStrip s.toList) t1 t2 dd →
      (parse_user_input s).isSome = true) ∧
    parse_user_input "Arsenal VS Chelsea ON 2024-05-01" = some ("Arsenal", "Chelsea", "2024-05-01") ∧
    parse_user_input "Arsenal v Chelsea on 2024-05-01" = some ("Arsenal", "Chelsea", "2024-05-01") ∧
    parse_user_input "Arsenal V Chelsea on 2024-05-01" = some ("Arsenal", "Chelsea", "2024-05-01") ∧
    parse_user_input "Arsenal Vs Chelsea on 2024-05-01" = none ∧
    parse_user_input "Arsenal vS Chelsea on 2024-05-01" = none ∧
    parse_user_input "Arsenal vs Chelsea On 2024-05-01" = none ∧
    parse_user_input "Arsenal vs Chelsea oN 2024-05-01" = none := by
  refine ⟨?_, by decide, by decide, by decide, by decide, by decide, by decide, by decide⟩
  intro s t1 t2 dd hdec
  have hne : pyStrip s.toList ≠ [] := decomp_nonempty hdec
  have hsome := (reMatch_isSome_iff (pyStrip s.toList)).mpr ⟨t1, t2, dd, hdec⟩
  have hp := parse_eq_of_ne hne
  cases hm : reMatchGroups (pyStrip s.toList) with
  | none =>
    rw [hm] at hsome
    simp at hsome
  | some g =>
    obtain ⟨g1, g2, g3⟩ := g
    rw [hm] at hp
    dsimp only at hp
    rw [hp]
    rfl

/-- C8 witness: the amended theorem applied to a concrete input with
upper-case separators. -/
theorem parse_sep_casings_witness :
    (parse_user_input "X VS Y ON 2024-01-02").isSome = true := by
  apply parse_sep_casings.1 "X VS Y ON 2024-01-02" ['X'] ['Y'] "2024-01-02".toList
  refine ⟨[' '], ['V', 'S'], [' '], [' '], ['O', 'N'], [' '], [],
    ?_, ?_, ?_, ?_, ?_, ?_, ?_, ?_, ?_, ?_, ?_, ?_, ?_, ?_, ?_, ?_⟩ <;> decide

/-- C10: the pattern is matched with `re.match` against a prefix of the
stripped input, so characters after the ten-digit date are silently
ignored: any suffix appended after a matching prefix leaves the captured
groups unchanged, `'A vs B on 2024-01-01 extra text'` parses to
`("A", "B", "2024-01-01")`, and `'A vs B on 2024-01-0199'` parses with
date `2024-01-01`, discarding the trailing `99`. -/
theorem parse_prefix_match :
    (∀ junk : List Char,
      reMatchGroups ("A vs B on 2024-01-01".toList ++ junk) =
        some ("A".toList, "B".toList, "2024-01-01".toList)) ∧
    parse_user_input "A vs B on 2024-01-01 extra text" = some ("A", "B", "2024-01-01") ∧
    parse_user_input "A vs B on 2024-01-0199" = some ("A", "B", "2024-01-01") := by
  refine ⟨fun junk => rfl, by decide, by decide⟩

/-! ## Lemmas: the API client -/

theorem make_request_failure {α : Type} (out : HttpOutcome α)
    (hf : isFailureOutcome out) :
    hasStringErrors (make_request out) = true ∨
      hasNonemptyErrors (make_request out) = true := by
  cases out with
  | completed status body =>
    cases body with
    | parsed b =>
      by_cases hstat : status = 200
      · subst hstat
        rcases hf with hs | ⟨xs, herr, hxs⟩
        · exact absurd rfl hs
        · right
          have hmr : make_request (HttpOutcome.completed 200 (BodyParse.parsed b)) = b := rfl
          rw [hmr, hasNonemptyErrors, herr]
          simp [hxs]
      · left
        simp only [make_request]
        split_ifs with h1 h2 h3
        · rfl
        · rfl
        · rfl
        · rfl
    | invalid text =>
      left
      simp only [make_request]
      split_ifs <;> rfl
  | timeout => left; rfl
  | connectionError msg => left; rfl
  | requestError msg => left; rfl

/-- C1: every enumerated failure of the HTTP primitive — any non-200
status (401, 403, 429 and the rest), 30-second timeout, connection
failure, other request exception, malformed body, or a 200 response
whose `errors` field is a nonempty array — makes `find_fixture` return
not-found and `get_player_stats` return the empty list.  (Both
operations are total functions of the request outcome: no outcome
raises.) -/
theorem error_paths_degrade :
    (∀ (team1 team2 date : String) (out : HttpOutcome Fixture),
      isFailureOutcome out → find_fixture team1 team2 date out = none) ∧
    (∀ out : HttpOutcome TeamStats,
      isFailureOutcome out → get_player_stats out = []) := by
  constructor
  · intro team1 team2 date out hf
    rcases make_request_failure out hf with h | h <;>
      simp [find_fixture, h]
  · intro out hf
    rcases make_request_failure out hf with h | h <;>
      simp [get_player_stats, h]

/-- C1 witness: the theorem applied to a timeout and to a 200 response
with a nonempty `errors` array. -/
theorem error_paths_degrade_witness :
    find_fixture "Arsenal" "Chelsea" "2024-05-01" HttpOutcome.timeout = none ∧
    get_player_stats (HttpOutcome.completed 200
      (BodyParse.parsed { errors := some (ErrorsVal.arr ["token invalid"]),
                          response := some [] })) = [] :=
  ⟨error_paths_degrade.1 "Arsenal" "Chelsea" "2024-05-01" HttpOutcome.timeout trivial,
   error_paths_degrade.2 _ (Or.inr ⟨["token invalid"], rfl, by simp⟩)⟩

theorem scanFixtures_eq_find? (team1 team2 : String) :
    ∀ fs : List Fixture,
      scanFixtures team1 team2 fs = fs.find? (fixtureMatches team1 team2) := by
  intro fs
  induction fs with
  | nil => rfl
  | cons f rest ih =>
    cases hft : f.teams with
    | none =>
      simp [scanFixtures, List.find?, fixtureMatches, hft, ih]
    | some tn =>
      by_cases hm : teamsMatch team1 team2 tn = true
      · simp [scanFixtures, List.find?, fixtureMatches, hft, hm]
      · simp [scanFixtures, List.find?, fixtureMatches, hft, hm, ih]

theorem find?_some_first {α : Type} {p : α → Bool} :
    ∀ (fs : List α) (f : α), fs.find? p = some f →
      ∃ n, fs.get? n = some f ∧ p f = true ∧
        ∀ m, m < n → ∀ g, fs.get? m = some g → p g = false := by
  intro fs
  induction fs with
  | nil =>
    intro f h
    simp at h
  | cons a rest ih =>
    intro f h
    by_cases hp : p a = true
    · rw [List.find?_cons_of_pos _ hp] at h
      obtain rfl : a = f := by simpa using h
      exact ⟨0, rfl, hp, fun m hm => absurd hm (Nat.not_lt_zero m)⟩
    · rw [List.find?_cons_of_neg _ (by simpa using hp)] at h
      obtain ⟨n, h1, h2, h3⟩ := ih f h
      refine ⟨n + 1, by simpa using h1, h2, ?_⟩
      intro m hm g hg
      cases m with
      | zero =>
        obtain rfl : a = g := by simpa using hg
        simpa using hp
      | succ m =>
        exact h3 m (by omega) g (by simpa using hg)

/-- C4: on a successful fixtures-by-date response carrying the list
`fs`, `find_fixture` returns the first fixture in list order whose home
and away names contain the query teams as case-insensitive substrings in
either assignment (ties broken purely by list order), and `none` when no
fixture matches. -/
theorem find_fixture_first_match (team1 team2 date : String) (fs : List Fixture) :
    (∀ f, find_fixture team1 team2 date
        (.completed 200 (.parsed { errors := none, response := some fs })) = some f →
      ∃ n, fs.get? n = some f ∧ fixtureMatches team1 team2 f = true ∧
        ∀ m, m < n → ∀ g, fs.get? m = some g → fixtureMatches team1 team2 g = false) ∧
    (find_fixture team1 team2 date
        (.completed 200 (.parsed { errors := none, response := some fs })) = none ↔
      ∀ f ∈ fs, fixtureMatches team1 team2 f = false) := by
  have hred : find_fixture team1 team2 date
      (.completed 200 (.parsed { errors := none, response := some fs })) =
      scanFixtures team1 team2 fs := rfl
  rw [hred, scanFixtures_eq_find?]
  constructor
  · intro f h
    exact find?_some_first fs f h
  · rw [List.find?_eq_none]
    constructor
    · intro h f hf
      simpa using h f hf
    · intro h f hf
      simp [h f hf]

/-- C4 witness: a list with a non-matching fixture followed by two
matching ones — the first matching fixture in list order is returned. -/
theorem find_fixture_first_match_witness :
    ∃ n, [{ fixtureId := 7, teams := none }, rmBarcaFixture, rmBarcaFixture2].get? n =
        some rmBarcaFixture ∧
      fixtureMatches "Real Madrid" "Barcelona" rmBarcaFixture = true ∧
      ∀ m, m < n → ∀ g,
        [{ fixtureId := 7, teams := none }, rmBarcaFixture, rmBarcaFixture2].get? m = some g →
          fixtureMatches "Real Madrid" "Barcelona" g = false :=
  (find_fixture_first_match "Real Madrid" "Barcelona" "2024-03-17"
      [{ fixtureId := 7, teams := none }, rmBarcaFixture, rmBarcaFixture2]).1
    rmBarcaFixture (by decide)

theorem teamsMatch_comm (team1 team2 : String) (tn : FixtureTeams) :
    teamsMatch team1 team2 tn = teamsMatch team2 team1 tn := by
  simp only [teamsMatch]
  generalize pySubstr (pyLower team1) (pyLower tn.home) = b1
  generalize pySubstr (pyLower team2) (pyLower tn.away) = b2
  generalize pySubstr (pyLower team1) (pyLower tn.away) = b3
  generalize pySubstr (pyLower team2) (pyLower tn.home) = b4
  cases b1 <;> cases b2 <;> cases b3 <;> cases b4 <;> rfl

theorem fixtureMatches_comm (team1 team2 : String) (f : Fixture) :
    fixtureMatches team1 team2 f = fixtureMatches team2 team1 f := by
  rw [fixtureMatches, fixtureMatches]
  cases f.teams with
  | none => rfl
  | some tn => exact teamsMatch_comm team1 team2 tn

theorem scanFixtures_comm (team1 team2 : String) (fs : List Fixture) :
    scanFixtures team1 team2 fs = scanFixtures team2 team1 fs := by
  rw [scanFixtures_eq_find?, scanFixtures_eq_find?]
  congr 1
  funext f
  exact fixtureMatches_comm team1 team2 f

/-- C5: `find_fixture` is order-insensitive in its two team-name
arguments for every request outcome, and on a list containing the
home="Real Madrid" / away="Barcelona" fixture both argument orders
return that fixture. -/
theorem find_fixture_comm :
    (∀ (team1 team2 date : String) (out : HttpOutcome Fixture),
      find_fixture team1 team2 date out = find_fixture team2 team1 date out) ∧
    find_fixture "Real Madrid" "Barcelona" "2024-03-17"
      (.completed 200 (.parsed { errors := none, response := some [rmBarcaFixture] })) =
      some rmBarcaFixture ∧
    find_fixture "Barcelona" "Real Madrid" "2024-03-17"
      (.completed 200 (.parsed { errors := none, response := some [rmBarcaFixture] })) =
      some rmBarcaFixture := by
  refine ⟨?_, by decide, by decide⟩
  intro team1 team2 date out
  simp only [find_fixture]
  rw [scanFixtures_comm]

/-! ## Lemmas: the minutes filter -/

theorem filterPass_inner (ps : List PlayerEntry) :
    ∀ (acc : List PlayerEntry) (a b : Nat),
      ps.foldl
        (fun pacc player =>
          if keepPlayer player then (pacc.1 ++ [player], pacc.2.1 + 1, pacc.2.2 + 1)
          else (pacc.1, pacc.2.1 + 1, pacc.2.2)) (acc, a, b) =
      (acc ++ ps.filter keepPlayer, a + ps.length, b + (ps.filter keepPlayer).length) := by
  induction ps with
  | nil =>
    intro acc a b
    simp
  | cons p rest ih =>
    intro acc a b
    rw [List.foldl_cons]
    by_cases hk : keepPlayer p = true
    · simp only [hk, if_true]
      rw [ih]
      simp [List.filter_cons, hk, List.append_assoc, Nat.add_comm, Nat.add_assoc,
        Nat.add_left_comm]
    · simp only [hk, if_false, Bool.false_eq_true]
      rw [ih]
      simp [List.filter_cons, hk, Nat.add_comm, Nat.add_assoc, Nat.add_left_comm]

theorem foldl_tripleAppend (g : TeamStats → TeamStats) (n1 n2 : TeamStats → Nat) :
    ∀ (ts : List TeamStats) (acc : List TeamStats) (a b : Nat),
      ts.foldl (fun acc2 team =>
          (acc2.1 ++ [g team], acc2.2.1 + n1 team, acc2.2.2 + n2 team)) (acc, a, b) =
        (acc ++ ts.map g, a + (ts.map n1).sum, b + (ts.map n2).sum) := by
  intro ts
  induction ts with
  | nil =>
    intro acc a b
    simp
  | cons t rest ih =>
    intro acc a b
    rw [List.foldl_cons]
    rw [ih]
    simp [List.append_assoc, Nat.add_comm, Nat.add_assoc, Nat.add_left_comm]

theorem filterPass_eq (stats : List TeamStats) :
    filterPass stats =
      (stats.map (fun t => { t with players := t.players.filter keepPlayer }),
       (stats.map (fun t => t.players.length)).sum,
       (stats.map (fun t => (t.players.filter keepPlayer).length)).sum) := by
  rw [filterPass]
  simp only [filterPass_inner, List.nil_append, Nat.zero_add]
  have h := foldl_tripleAppend
    (fun team => { team with players := team.players.filter keepPlayer })
    (fun team => team.players.length)
    (fun team => (team.players.filter keepPlayer).length) stats [] 0 0
  simpa using h

/-- C3: every player of the roster handed to summarization has a
statistics entry with minutes strictly above five; `keepPlayer` holds
exactly when the first statistics entry exists, its minutes field is
non-null and exceeds five (null minutes behave like 0); on a concrete
team, minutes 3 and null are dropped while minutes 6 survives. -/
theorem mvp_minutes_filter :
    (∀ p : PlayerEntry, keepPlayer p = true ↔
      ∃ st m, p.statistics.head? = some st ∧ st.games.minutes = some m ∧ 5 < m) ∧
    (∀ (stats : List TeamStats) (team : TeamStats) (p : PlayerEntry),
      team ∈ (filterPass stats).1 → p ∈ team.players → keepPlayer p = true) ∧
    (filterPass [demoTeam]).1 = [{ teamName := "Demo", players := [playerMin6] }] := by
  refine ⟨?_, ?_, by decide⟩
  · intro p
    cases hh : p.statistics.head? with
    | none => simp [keepPlayer, playedMinutes, hh]
    | some st =>
      cases hm : st.games.minutes with
      | none => simp [keepPlayer, playedMinutes, hh, hm]
      | some m =>
        by_cases hmp : (0 : Int) < m
        · simp only [keepPlayer, playedMinutes, hh, hm, if_pos hmp, decide_eq_true_eq,
            Option.some.injEq]
          constructor
          · intro h
            exact ⟨st, m, rfl, hm, h⟩
          · rintro ⟨st2, m2, rfl, h2, h3⟩
            rw [hm] at h2
            obtain rfl : m = m2 := by simpa using h2
            exact h3
        · simp only [keepPlayer, playedMinutes, hh, hm, if_neg hmp, decide_eq_true_eq,
            Option.some.injEq]
          constructor
          · intro h
            omega
          · rintro ⟨st2, m2, rfl, h2, h3⟩
            rw [hm] at h2
            obtain rfl : m = m2 := by simpa using h2
            omega
  · intro stats team p hteam hp
    rw [filterPass_eq] at hteam
    obtain ⟨t0, -, rfl⟩ := List.mem_map.mp hteam
    exact (List.mem_filter.mp hp).2

/-- C3 witness: the theorem applied to the concrete demonstration
team. -/
theorem mvp_minutes_filter_witness : keepPlayer playerMin6 = true :=
  mvp_minutes_filter.2.1 [demoTeam] { teamName := "Demo", players := [playerMin6] }
    playerMin6 (by decide) (by decide)

/-- C7: on a nonempty fetched statistics list, `determine_mvp` returns
the language model's completion text verbatim (for every completion
function), followed by the fixed summary line built from `N` = the
number of players retained by the minutes filter and `M` = total fetched
players minus `N`; the retained and total counters equal the
corresponding player counts; and the two-teams-of-one-90-minute-player
scenario yields `... 2 players (filtered out 0 who played ≤5
minutes)`. -/
theorem determine_mvp_output :
    (∀ (llm : String → String) (fixture_id : Int) (out : HttpOutcome TeamStats),
      get_player_stats out ≠ [] →
      determine_mvp llm fixture_id out =
        llm (mvpPrompt (createPlayerSummary (filterPass (get_player_stats out)).1)) ++
          "\n\n📊 Analysis based on " ++ toString (filterPass (get_player_stats out)).2.2 ++
          " players (filtered out " ++
          toString ((filterPass (get_player_stats out)).2.1 -
            (filterPass (get_player_stats out)).2.2) ++
          " who played ≤5 minutes)") ∧
    (∀ stats : List TeamStats,
      (filterPass stats).2.2 = ((filterPass stats).1.map (fun t => t.players.length)).sum ∧
      (filterPass stats).2.1 = (stats.map (fun t => t.players.length)).sum) ∧
    (∀ llm : String → String,
      determine_mvp llm 42
          (.completed 200 (.parsed { errors := none, response := some twoTeamStats })) =
        llm (mvpPrompt (createPlayerSummary twoTeamStats)) ++
          "\n\n📊 Analysis based on " ++ "2" ++ " players (filtered out " ++ "0" ++
          " who played ≤5 minutes)") ∧
    determine_mvp (fun _ => "MVP: A1 - led both boxes") 42
        (.completed 200 (.parsed { errors := none, response := some twoTeamStats })) =
      "MVP: A1 - led both boxes\n\n📊 Analysis based on 2 players (filtered out 0 who played ≤5 minutes)" := by
  refine ⟨?_, ?_, ?_, by decide⟩
  · intro llm fixture_id out hne
    rw [determine_mvp]
    rw [if_neg (by simpa [List.isEmpty_iff] using hne)]
  · intro stats
    rw [filterPass_eq]
    constructor
    · rw [List.map_map]
      rfl
    · rfl
  · intro llm
    rfl

/-- C7 witness: the theorem applied to a concrete completion function
and a concrete successful statistics response. -/
theorem determine_mvp_output_witness :
    determine_mvp (fun _ => "MVP: A1 - dominated the match") 42
        (.completed 200 (.parsed { errors := none, response := some twoTeamStats })) =
      (fun _ : String => "MVP: A1 - dominated the match")
          (mvpPrompt (createPlayerSummary (filterPass (get_player_stats
            (.completed 200 (.parsed { errors := none, response := some twoTeamStats })))).1)) ++
        "\n\n📊 Analysis based on " ++
        toString (filterPass (get_player_stats
          ((.completed 200 (.parsed { errors := none, response := some twoTeamStats })) :
            HttpOutcome TeamStats))).2.2 ++
        " players (filtered out " ++
        toString ((filterPass (get_player_stats
          ((.completed 200 (.parsed { errors := none, response := some twoTeamStats })) :
            HttpOutcome TeamStats))).2.1 -
          (filterPass (get_player_stats
            ((.completed 200 (.parsed { errors := none, response := some twoTeamStats })) :
              HttpOutcome TeamStats))).2.2) ++
        " who played ≤5 minutes)" :=
  determine_mvp_output.1 (fun _ => "MVP: A1 - dominated the match") 42
    (.completed 200 (.parsed { errors := none, response := some twoTeamStats }))
    (by decide)

/-! ## Lemmas: the per-player digest -/

theorem append_ite (s X : String) (c : Prop) [Decidable c] :
    (if c then s ++ X else s) = s ++ if c then X else "" := by
  split
  · rfl
  · rw [String.append_empty]

theorem append_matchOpt (a : String) (v : Option Int) (f : Int → String) :
    (match v with
     | some c => a ++ f c
     | none => a) =
      a ++ match v with
           | some c => f c
           | none => "" := by
  cases v
  · rw [String.append_empty]
  · rfl

theorem pyOrInt_pos_iff (v : Option Int) : (0 < pyOrInt v 0) ↔ optPos v = true := by
  cases v with
  | none => simp [pyOrInt, optPos]
  | some n =>
    by_cases h : n = 0
    · subst h
      simp [pyOrInt, optPos]
    · simp [pyOrInt, optPos, h]

theorem decide_pyOrInt_pos (v : Option Int) : decide (0 < pyOrInt v 0) = optPos v := by
  by_cases h : 0 < pyOrInt v 0
  · rw [decide_eq_true h]
    exact ((pyOrInt_pos_iff v).mp h).symm
  · rw [decide_eq_false h]
    cases hb : optPos v
    · rfl
    · exact absurd ((pyOrInt_pos_iff v).mpr hb) h

theorem decide_bool_eq (b : Bool) : decide (b = true) = b := by
  cases b <;> rfl

/-- C6 counterexample: a player whose rating field is present (but
Python-falsy, the empty string) gets no rating clause, and the digest is
identical to the one of the same player with the rating field absent —
so the rating clause is not appended iff the field is present, and
presence is not distinguishable in the digest. -/
theorem digest_rating_cex :
    (playerEmptyRating.statistics.head?.getD emptyStatEntry).games.rating = some "" ∧
    playerLine playerEmptyRating = "• X (Unknown) - 90min\n\n" ∧
    playerLine playerEmptyRating = playerLine playerNoRating := by
  refine ⟨rfl, by decide, rfl⟩

/-- Stage lemma: the cards stage appends exactly the cards clause and
the closing blank line. -/
theorem digestFromCards_eq (st : StatEntry) (s : String) :
    digestFromCards st s = s ++ cardsLineSpec st ++ "\n" := by
  rw [digestFromCards, cardsLineSpec]
  simp only [gt_iff_lt, pyOrInt_pos_iff, decide_bool_eq]
  by_cases hc : (optPos st.cards.yellow || optPos st.cards.red) = true
  · rw [if_pos hc, if_pos hc]
    apply String.ext
    simp [String.data_append]
  · rw [if_neg hc, if_neg hc, String.append_empty]

/-- Stage lemma: the defense stage appends exactly the defense line and
the rest. -/
theorem digestFromDefense_eq (st : StatEntry) (s : String) :
    digestFromDefense st s = s ++ defenseLineSpec st ++ cardsLineSpec st ++ "\n" := by
  rw [digestFromDefense, defenseLineSpec]
  simp only [gt_iff_lt, pyOrInt_pos_iff, decide_bool_eq]
  by_cases hc : (optPos st.tackles.total || optPos st.tackles.interceptions ||
      optPos st.duels.total) = true
  · rw [if_pos hc, if_pos hc]
    by_cases hd : optPos st.duels.total = true
    · rw [if_pos hd, if_pos hd, digestFromCards_eq]
      apply String.ext
      simp [String.data_append]
    · rw [if_neg hd, if_neg hd, digestFromCards_eq]
      apply String.ext
      simp [String.data_append]
  · rw [if_neg hc, if_neg hc, String.append_empty, digestFromCards_eq]

/-- Stage lemma: the attack stage appends exactly the attack line and
the rest. -/
theorem digestFromAttack_eq (st : StatEntry) (s : String) :
    digestFromAttack st s =
      s ++ attackLineSpec st ++ defenseLineSpec st ++ cardsLineSpec st ++ "\n" := by
  rw [digestFromAttack, attackLineSpec]
  simp only [gt_iff_lt, pyOrInt_pos_iff, decide_bool_eq]
  by_cases hc : (optPos st.shots.total || optPos st.passes.total) = true
  · rw [if_pos hc, if_pos hc]
    cases hacc : st.passes.accuracy with
    | none =>
      by_cases hk : optPos st.passes.key = true
      · rw [if_pos hk, if_pos hk, digestFromDefense_eq]
        apply String.ext
        simp [String.data_append]
      · rw [if_neg hk, if_neg hk, digestFromDefense_eq]
        apply String.ext
        simp [String.data_append]
    | some acc =>
      by_cases hk : optPos st.passes.key = true
      · rw [if_pos hk, if_pos hk, digestFromDefense_eq]
        apply String.ext
        simp [String.data_append]
      · rw [if_neg hk, if_neg hk, digestFromDefense_eq]
        apply String.ext
        simp [String.data_append]
  · rw [if_neg hc, if_neg hc, String.append_empty, digestFromDefense_eq]

/-- Stage lemma: the saves stage appends exactly the saves clause, the
newline closing the headline, and the rest. -/
theorem digestFromSaves_eq (st : StatEntry) (s : String) :
    digestFromSaves st s =
      s ++ savesClauseSpec st ++ "\n" ++ attackLineSpec st ++ defenseLineSpec st ++
        cardsLineSpec st ++ "\n" := by
  rw [digestFromSaves, savesClauseSpec]
  simp only [gt_iff_lt, pyOrInt_pos_iff, decide_bool_eq]
  by_cases hc : optPos st.goals.saves = true
  · rw [if_pos hc, if_pos hc, digestFromAttack_eq]
    apply String.ext
    simp [String.data_append]
  · rw [if_neg hc, if_neg hc, String.append_empty, digestFromAttack_eq]

/-- Stage lemma: the assists stage appends exactly the assists clause
and the rest. -/
theorem digestFromAssists_eq (st : StatEntry) (s : String) :
    digestFromAssists st s =
      s ++ assistsClauseSpec st ++ savesClauseSpec st ++ "\n" ++ attackLineSpec st ++
        defenseLineSpec st ++ cardsLineSpec st ++ "\n" := by
  rw [digestFromAssists, assistsClauseSpec]
  simp only [gt_iff_lt, pyOrInt_pos_iff, decide_bool_eq]
  by_cases hc : optPos st.goals.assists = true
  · rw [if_pos hc, if_pos hc, digestFromSaves_eq]
    apply String.ext
    simp [String.data_append]
  · rw [if_neg hc, if_neg hc, String.append_empty, digestFromSaves_eq]

/-- Stage lemma: the goals stage appends exactly the goals clause and
the rest. -/
theorem digestFromGoals_eq (st : StatEntry) (s : String) :
    digestFromGoals st s =
      s ++ goalsClauseSpec st ++ assistsClauseSpec st ++ savesClauseSpec st ++ "\n" ++
        attackLineSpec st ++ defenseLineSpec st ++ cardsLineSpec st ++ "\n" := by
  rw [digestFromGoals, goalsClauseSpec]
  simp only [gt_iff_lt, pyOrInt_pos_iff, decide_bool_eq]
  by_cases hc : optPos st.goals.total = true
  · rw [if_pos hc, if_pos hc, digestFromAssists_eq]
    apply String.ext
    simp [String.data_append]
  · rw [if_neg hc, if_neg hc, String.append_empty, digestFromAssists_eq]

/-- Stage lemma: the rating stage appends exactly the rating clause and
the rest. -/
theorem digestFromRating_eq (st : StatEntry) (s : String) :
    digestFromRating st s =
      s ++ ratingClauseSpec st ++ goalsClauseSpec st ++ assistsClauseSpec st ++
        savesClauseSpec st ++ "\n" ++ attackLineSpec st ++ defenseLineSpec st ++
        cardsLineSpec st ++ "\n" := by
  rw [digestFromRating, ratingClauseSpec]
  rcases hrat : st.games.rating with - | r
  · rw [show pyOrStr none "N/A" = "N/A" from rfl]
    rw [if_neg (by simp), String.append_empty, digestFromGoals_eq]
  · by_cases h1 : r = ""
    · subst h1
      rw [show pyOrStr (some "") "N/A" = "N/A" from rfl]
      rw [if_neg (by simp)]
      rw [digestFromGoals_eq]
      apply String.ext
      simp [String.data_append]
    · have hps : pyOrStr (some r) "N/A" = r := by
        simp [pyOrStr, h1]
      rw [hps]
      by_cases h2 : r = "N/A"
      · subst h2
        rw [if_neg (by simp)]
        rw [digestFromGoals_eq]
        apply String.ext
        simp [String.data_append]
      · rw [if_pos (show r ≠ "N/A" from h2)]
        rw [digestFromGoals_eq]
        apply String.ext
        simp [String.data_append, h1, h2]

/-- C6 as amended: the per-player digest entry is exactly the mandatory
name/position/minutes head followed by the conditional clauses — the
rating clause appended iff the rating is present, nonempty and not the
`"N/A"` sentinel (a present but falsy rating is indistinguishable from
an absent one); goal, assist and save clauses iff positive; the attack
line iff shots-total or passes-total is positive, with accuracy shown
iff present and key passes iff positive; the defense line iff tackles,
interceptions or duels-total is positive, with duels won/total iff
duels-total is positive; the cards line iff yellow or red cards are
positive. -/
theorem playerLine_composition (player : PlayerEntry) :
    playerLine player =
      mandatoryLineSpec player ++
        ratingClauseSpec (player.statistics.head?.getD emptyStatEntry) ++
        goalsClauseSpec (player.statistics.head?.getD emptyStatEntry) ++
        assistsClauseSpec (player.statistics.head?.getD emptyStatEntry) ++
        savesClauseSpec (player.statistics.head?.getD emptyStatEntry) ++ "\n" ++
        attackLineSpec (player.statistics.head?.getD emptyStatEntry) ++
        defenseLineSpec (player.statistics.head?.getD emptyStatEntry) ++
        cardsLineSpec (player.statistics.head?.getD emptyStatEntry) ++ "\n" := by
  have hstage : playerLine player =
      digestFromRating (player.statistics.head?.getD emptyStatEntry)
        (mandatoryLineSpec player) := rfl
  rw [hstage, digestFromRating_eq]

/-- C9 counterexample: with the input stream at end-of-input forever,
`input()` raises `EOFError` at each iteration, the generic
`except Exception` handler catches it and the loop keeps running — after
100 iterations it still has not terminated, while an `"exit"` line stops
it immediately; so the loop does not terminate on the end-of-input
signal as claimed. -/
theorem loop_eof_cex :
    exitsWithin okAgent (fun _ => InputEvent.eof) 100 = false ∧
    loopIter okAgent InputEvent.eof = LoopAction.next ∧
    loopIter okAgent (InputEvent.line "exit") = LoopAction.stop := by
  refine ⟨by decide, rfl, by decide⟩

/-- C9 as amended: the loop leaves within `n` iterations exactly when
some earlier iteration stops; an iteration stops on an exit keyword
(`exit`/`quit`/`q`, case-insensitive after stripping) or on
`KeyboardInterrupt` (at the prompt or raised while processing);
end-of-input (`EOFError`) and every other exception raised while
processing a query are caught by the generic handler, which logs and
continues to the next iteration. -/
theorem main_loop_termination :
    (∀ (agent : String → String → String → AgentResult) (evs : Nat → InputEvent) (n : Nat),
      exitsWithin agent evs n = true ↔
        ∃ i, i < n ∧ loopIter agent (evs i) = LoopAction.stop) ∧
    (∀ (agent : String → String → String → AgentResult) (s : String),
      ["exit", "quit", "q"].contains (pyLower (pyStripS s)) = true →
      loopIter agent (InputEvent.line s) = LoopAction.stop) ∧
    (∀ agent : String → String → String → AgentResult,
      loopIter agent InputEvent.interrupt = LoopAction.stop) ∧
    (∀ agent : String → String → String → AgentResult,
      loopIter agent InputEvent.eof = LoopAction.next) ∧
    (∀ (s msg : String) (team1 team2 date : String),
      ["exit", "quit", "q"].contains (pyLower (pyStripS s)) = false →
      parse_user_input (pyStripS s) = some (team1, team2, date) →
      loopIter (fun _ _ _ => AgentResult.raisedException msg) (InputEvent.line s) =
        LoopAction.next) ∧
    (∀ (s : String) (team1 team2 date : String),
      parse_user_input (pyStripS s) = some (team1, team2, date) →
      loopIter (fun _ _ _ => AgentResult.raisedInterrupt) (InputEvent.line s) =
        LoopAction.stop ∨
        ["exit", "quit", "q"].contains (pyLower (pyStripS s)) = true) := by
  refine ⟨?_, ?_, ?_, ?_, ?_, ?_⟩
  · intro agent evs n
    rw [exitsWithin, List.any_eq_true]
    constructor
    · rintro ⟨i, hi, hstop⟩
      exact ⟨i, List.mem_range.mp hi, by simpa using hstop⟩
    · rintro ⟨i, hi, hstop⟩
      exact ⟨i, List.mem_range.mpr hi, by simpa using hstop⟩
  · intro agent s hkw
    rw [loopIter]
    rw [if_pos hkw]
  · intro agent
    rfl
  · intro agent
    rfl
  · intro s msg team1 team2 date hkw hparse
    rw [loopIter, if_neg (by simp only [hkw]; simp)]
    have hne : ¬ pyStripS s = "" := by
      intro hempty
      rw [hempty] at hparse
      rw [parse_none_of_empty (by simp [pyStrip])] at hparse
      exact absurd hparse (by simp)
    rw [if_neg hne, hparse]
  · intro s team1 team2 date hparse
    by_cases hkw : ["exit", "quit", "q"].contains (pyLower (pyStripS s)) = true
    · exact Or.inr hkw
    · left
      rw [loopIter, if_neg hkw]
      have hne : ¬ pyStripS s = "" := by
        intro hempty
        rw [hempty] at hparse
        rw [parse_none_of_empty (by simp [pyStrip])] at hparse
        exact absurd hparse (by simp)
      rw [if_neg hne, hparse]

/-- C9 witness: the amended theorem applied to a concrete stream that
stops at its third iteration, and to a concrete exit keyword. -/
theorem main_loop_termination_witness :
    exitsWithin okAgent
        (fun i => if i = 2 then InputEvent.line "QUIT" else InputEvent.eof) 5 = true ∧
    loopIter okAgent (InputEvent.line " Exit ") = LoopAction.stop :=
  ⟨(main_loop_termination.1 okAgent
      (fun i => if i = 2 then InputEvent.line "QUIT" else InputEvent.eof) 5).mpr
      ⟨2, by decide, by decide⟩,
   main_loop_termination.2.1 okAgent " Exit " (by decide)⟩

end FootballMVP
